import Mathlib

/-!
Verification of the bonomen process-impersonation detector.

The embedding follows `src/main.rs`: the rules-file parser
(`read_procs_file`), the whitelist test (`is_whitelisted`), the two
detector loops (`win_check_procs_impers`, `unix_check_procs_impers`)
and the Windows process enumerator (`read_win_system_procs`, with the
Win32 calls abstracted as per-PID oracle outcomes).

The edit-distance primitive is the external `strsim` crate, so it is
modelled from the spec: minimum number of single-character insertions,
deletions, substitutions and adjacent transpositions.  A fuel-based
structural recursion is used so that concrete instances reduce in the
kernel; the fuel `|a| + |b| + 1` strictly dominates the sum of the
remaining lengths on every recursive call, so the cutoff is never hit.
-/

namespace Bonomen

/-- Modelled from the spec: the Damerau-Levenshtein recursion (insert,
delete, substitute, adjacent transpose), with explicit fuel.  The
transposition branch applies when the two leading characters are
swapped, and recurses past both pairs. -/
def dlFuel : Nat → List Char → List Char → Nat
  | 0, _, _ => 0
  | _ + 1, [], ys => ys.length
  | _ + 1, _ :: xs, [] => xs.length + 1
  | f + 1, x :: xs, y :: ys =>
      if xs.head? = some y ∧ ys.head? = some x then
        min (min (dlFuel f xs (y :: ys) + 1)
             (min (dlFuel f (x :: xs) ys + 1)
                  (dlFuel f xs ys + (if x = y then 0 else 1))))
            (dlFuel f xs.tail ys.tail + 1)
      else
        min (dlFuel f xs (y :: ys) + 1)
            (min (dlFuel f (x :: xs) ys + 1)
                 (dlFuel f xs ys + (if x = y then 0 else 1)))

/-- Modelled from the spec: the edit-distance primitive used by the
detector (`strsim::damerau_levenshtein`). -/
def damerau_levenshtein (a b : String) : Nat :=
  dlFuel (a.length + b.length + 1) a.data b.data

/-- Modelled from the spec: plain Levenshtein (no transpositions),
used only as the comparison point named by the spec. -/
def levFuel : Nat → List Char → List Char → Nat
  | 0, _, _ => 0
  | _ + 1, [], ys => ys.length
  | _ + 1, _ :: xs, [] => xs.length + 1
  | f + 1, x :: xs, y :: ys =>
      min (levFuel f xs (y :: ys) + 1)
          (min (levFuel f (x :: xs) ys + 1)
               (levFuel f xs ys + (if x = y then 0 else 1)))

/-- Modelled from the spec: plain Levenshtein distance on strings. -/
def levenshtein_plain (a b : String) : Nat :=
  levFuel (a.length + b.length + 1) a.data b.data

/-- The fuelled recursion is symmetric in its two list arguments, at
every fuel value: each branch of the definition maps to the mirrored
branch of the swapped call. -/
theorem dlFuel_comm : ∀ (f : Nat) (xs ys : List Char), dlFuel f xs ys = dlFuel f ys xs := by
  intro f
  induction f with
  | zero => intro xs ys; rfl
  | succ f ih =>
    intro xs ys
    match xs, ys with
    | [], [] => rfl
    | [], _ :: _ => simp [dlFuel]
    | _ :: _, [] => simp [dlFuel]
    | x :: xs, y :: ys =>
      simp only [dlFuel]
      rw [ih xs (y :: ys), ih (x :: xs) ys, ih xs ys, ih xs.tail ys.tail]
      have hsub : (if x = y then 0 else 1) = (if y = x then 0 else 1) := by
        by_cases h : x = y
        · simp [h]
        · simp [h, Ne.symm h]
      rw [hsub]
      by_cases hc : xs.head? = some y ∧ ys.head? = some x
      · have hc' : ys.head? = some x ∧ xs.head? = some y := ⟨hc.2, hc.1⟩
        rw [if_pos hc, if_pos hc']
        omega
      · have hc' : ¬ (ys.head? = some x ∧ xs.head? = some y) := fun h => hc ⟨h.2, h.1⟩
        rw [if_neg hc, if_neg hc']
        omega

/-! ## Data model (types.rs / psutil) -/

/-- Critical-process rule, from `types::ProcProps`: name, threshold
(`u32` in the source, counted here in `Nat`), whitelist of paths.  One
rule per line of the rules file. -/
structure ProcProps where
  name : String
  threshold : Nat
  whitelist : List String
deriving DecidableEq

/-- Windows process snapshot, from `types::WinProc`: resolved module
base name and executable path. -/
structure WinProc where
  name : String
  exe_path : String
deriving DecidableEq

/-- Unix process as used by the detector (psutil's `Process` is
external): the `comm` field, and the outcome of the `exe()` call — on
failure the source substitutes the error's display string, so the
error side carries that string. -/
structure Process where
  comm : String
  exe : Except String String

/-! ## Whitelist and detector (`main.rs` lines 185-187, 278-353) -/

/-- Translation of `is_whitelisted`: exact string membership, via
`iter().any(|p| p == proc_path)`. -/
def is_whitelisted (proc_path : String) (whitelist : List String) : Bool :=
  whitelist.any (fun p => p == proc_path)

/-- The suspicion condition of the inner detector loop, exactly as in
the source: `threshold > 0 && threshold <= crit_proc.threshold &&
!is_whitelisted(exe_path, crit_proc.whitelist)` where `threshold` is
the Damerau-Levenshtein distance of the two names. -/
def suspB (name exe_path : String) (crit_proc : ProcProps) : Bool :=
  let threshold := damerau_levenshtein name crit_proc.name
  decide (threshold > 0) && decide (threshold ≤ crit_proc.threshold) &&
    !(is_whitelisted exe_path crit_proc.whitelist)

/-- Translation of `win_check_procs_impers`: a nested loop over
snapshots and rules incrementing `susp_procs` whenever the suspicion
condition holds (printing is presentation and not modelled). -/
def win_check_procs_impers (crit_procs_vec : List ProcProps) (sys_procs_vec : List WinProc) : Nat :=
  sys_procs_vec.foldl
    (fun susp_procs sys_proc =>
      crit_procs_vec.foldl
        (fun susp_procs crit_proc =>
          if suspB sys_proc.name sys_proc.exe_path crit_proc then susp_procs + 1 else susp_procs)
        susp_procs)
    0

/-- Translation of the `exe_path` binding of `unix_check_procs_impers`:
`sys_proc.exe()` on success, `PathBuf::from(why.to_string())` — the
error's display string — on failure. -/
def unix_exe_path (sys_proc : Process) : String :=
  match sys_proc.exe with
  | .ok path => path
  | .error why => why

/-- Translation of `unix_check_procs_impers`: same nested loop, on the
`comm` name and the resolved-or-placeholder path. -/
def unix_check_procs_impers (crit_procs_vec : List ProcProps) (sys_procs_vec : List Process) : Nat :=
  sys_procs_vec.foldl
    (fun susp_procs sys_proc =>
      crit_procs_vec.foldl
        (fun susp_procs crit_proc =>
          if suspB sys_proc.comm (unix_exe_path sys_proc) crit_proc then susp_procs + 1 else susp_procs)
        susp_procs)
    0

/-- The list of Findings of the Windows detector: for each snapshot,
one entry per rule meeting the suspicion condition. -/
def win_findings (crit_procs_vec : List ProcProps) (sys_procs_vec : List WinProc) :
    List (WinProc × ProcProps) :=
  sys_procs_vec.flatMap
    (fun s => (crit_procs_vec.filter (suspB s.name s.exe_path)).map (fun c => (s, c)))

/-- The list of Findings of the Unix detector. -/
def unix_findings (crit_procs_vec : List ProcProps) (sys_procs_vec : List Process) :
    List (Process × ProcProps) :=
  sys_procs_vec.flatMap
    (fun p => (crit_procs_vec.filter (suspB p.comm (unix_exe_path p))).map (fun c => (p, c)))

/-! ## Rules-file parsing (`read_procs_file`, lines 149-183)

The source aborts by panicking: the `assert!(v.len() >= 3, "Invalid
format, line: {}", line)` carries the offending line in its message,
while `v[1].parse::<u32>().unwrap()` aborts with the parse error's
message alone (no line).  The two abort shapes are kept apart. -/

deriving instance DecidableEq for Except

/-- The two fatal abort shapes of `read_procs_file`: the field-count
assertion (which reports the line) and the threshold-parse unwrap
(which does not). -/
inductive RulesError where
  | invalidFormat (line : String)
  | parseIntError
deriving DecidableEq

/-- Translation of `line.split(';')` on the character list: splitting
an empty string yields one empty field, and every separator opens a
new field. -/
def split_list (sep : Char) : List Char → List (List Char)
  | [] => [[]]
  | c :: cs =>
    if c = sep then [] :: split_list sep cs
    else
      match split_list sep cs with
      | [] => [[c]]
      | g :: gs => (c :: g) :: gs

/-- The semicolon split of a line, as a list of strings. -/
def split_semi (line : String) : List String :=
  (split_list (Char.ofNat 59) line.data).map String.mk

/-- Translation of `v[1].parse::<u32>()`: an optional leading plus
sign, then at least one decimal digit, value bounded by `u32::MAX`. -/
def parse_u32 (s : String) : Option Nat :=
  let cs := match s.data with
    | c :: rest => if c = Char.ofNat 43 then rest else c :: rest
    | [] => []
  match cs with
  | [] => none
  | _ =>
    match cs.foldl
        (fun acc c =>
          match acc with
          | some n =>
            if Char.ofNat 48 ≤ c ∧ c ≤ Char.ofNat 57 then
              some (n * 10 + (c.toNat - 48))
            else none
          | none => none)
        (some 0) with
    | some n => if n ≤ 4294967295 then some n else none
    | none => none

/-- Translation of one iteration of the `read_procs_file` loop: split
the line at semicolons, require at least three fields, parse field 1
as `u32`, take field 0 as the name and fields 2.. as the whitelist. -/
def parse_rule_line (line : String) : Except RulesError ProcProps :=
  let v := split_semi line
  if v.length < 3 then
    .error (.invalidFormat line)
  else
    match parse_u32 v[1]! with
    | some t => .ok { name := v[0]!, threshold := t, whitelist := v.drop 2 }
    | none => .error .parseIntError

/-- Translation of `read_procs_file` over the file's lines: rules in
line order, aborting at the first malformed line. -/
def read_procs_file : List String → Except RulesError (List ProcProps)
  | [] => .ok []
  | line :: rest =>
    match parse_rule_line line with
    | .error e => .error e
    | .ok r =>
      match read_procs_file rest with
      | .error e => .error e
      | .ok rs => .ok (r :: rs)

/-- A malformed line in the sense of the spec: fewer than three
semicolon-delimited fields, or a second field that is not a `u32`. -/
def badLineB (line : String) : Bool :=
  let v := split_semi line
  decide (v.length < 3) || (parse_u32 v[1]!).isNone

/-- Translation of `main`'s sequencing on Unix: load the rules file
first; only on success enumerate processes and run the detector.  The
snapshot list stands for the outcome of the enumeration, so a result
independent of it shows no scan ran. -/
def bonomen_run (lines : List String) (sys_procs_vec : List Process) : Except RulesError Nat :=
  match read_procs_file lines with
  | .error e => .error e
  | .ok crit => .ok (unix_check_procs_impers crit sys_procs_vec)

/-! ## Windows enumerator (`read_win_system_procs`, lines 196-276)

The Win32 calls are abstracted as one oracle record per PID giving
each call's outcome; the name/path buffers are declared outside the
loop in the source and reused across iterations, so they are threaded
through the fold as state.  The decode step is
`String::from_utf16(..).split('\u{0}').next()`: the prefix before the
first NUL. -/

/-- Oracle for one PID's Win32 calls: whether `OpenProcess` returned
null, the return value of `K32EnumProcessModulesEx` (the source treats
a return greater than zero as the skip branch), and the return values
and buffer contents written by `K32GetModuleBaseNameW` and
`K32GetModuleFileNameExW` (each writes its buffer only when it
returns nonzero). -/
structure PidOutcome where
  handle_null : Bool
  enum_modules_ret : Nat
  base_name_ret : Nat
  base_name_buf : String
  file_name_ret : Nat
  file_name_buf : String

/-- State threaded through the PID loop: the two reused buffers and
the accumulated snapshot list. -/
structure WinScanState where
  nbuf : String
  pbuf : String
  acc : List WinProc

/-- Decode a wide-character buffer: the prefix before the first
embedded NUL. -/
def decode_wstr (s : String) : String :=
  String.mk (s.data.takeWhile (fun c => c ≠ Char.ofNat 0))

/-- The emission step at the bottom of the PID loop: decode both
buffers and push a snapshot when both decode nonempty. -/
def win_emit (nbuf pbuf : String) (acc : List WinProc) : List WinProc :=
  let name_str := decode_wstr nbuf
  let path_str := decode_wstr pbuf
  if name_str ≠ "" ∧ path_str ≠ "" then acc ++ [{ name := name_str, exe_path := path_str }] else acc

/-- Translation of one iteration of the PID loop.  When the handle is
null the source has no `continue`: control falls through to the decode
step with the buffers unchanged.  The three inner failure branches
`continue` (the base-name buffer having already been overwritten when
the file-name call is the one that fails). -/
def win_scan_step (st : WinScanState) (o : PidOutcome) : WinScanState :=
  if o.handle_null then
    { st with acc := win_emit st.nbuf st.pbuf st.acc }
  else if o.enum_modules_ret > 0 then st
  else if o.base_name_ret = 0 then st
  else if o.file_name_ret = 0 then { st with nbuf := o.base_name_buf }
  else
    { nbuf := o.base_name_buf, pbuf := o.file_name_buf,
      acc := win_emit o.base_name_buf o.file_name_buf st.acc }

/-- Translation of `read_win_system_procs`: an empty list when the
top-level `K32EnumProcesses` fails, otherwise the PID loop starting
from zeroed buffers. -/
def read_win_system_procs (enum_ok : Bool) (pids : List PidOutcome) : List WinProc :=
  if enum_ok then
    (pids.foldl win_scan_step
      { nbuf := String.mk (List.replicate 64 (Char.ofNat 0)),
        pbuf := String.mk (List.replicate 254 (Char.ofNat 0)),
        acc := [] }).acc
  else []

/-! ## Helper lemmas -/

theorem foldl_count {α : Type} (p : α → Bool) : ∀ (l : List α) (n : Nat),
    l.foldl (fun acc c => if p c then acc + 1 else acc) n = n + l.countP p := by
  intro l
  induction l with
  | nil => intro n; simp
  | cons a l ih =>
    intro n
    simp only [List.foldl_cons, List.countP_cons, ih]
    by_cases h : p a = true
    · simp [h]
      omega
    · simp [h]

theorem win_check_aux (crit : List ProcProps) :
    ∀ (sys : List WinProc) (n : Nat),
      sys.foldl
        (fun susp_procs sys_proc =>
          crit.foldl
            (fun susp_procs crit_proc =>
              if suspB sys_proc.name sys_proc.exe_path crit_proc then susp_procs + 1 else susp_procs)
            susp_procs)
        n
      = n + (sys.map (fun s => crit.countP (suspB s.name s.exe_path))).sum := by
  intro sys
  induction sys with
  | nil => intro n; simp
  | cons s sys ih =>
    intro n
    simp only [List.foldl_cons, List.map_cons, List.sum_cons]
    rw [foldl_count, ih]
    omega

/-- The Windows detector counts, per snapshot, the rules meeting the
suspicion condition, and sums over snapshots. -/
theorem win_check_eq_sum (crit : List ProcProps) (sys : List WinProc) :
    win_check_procs_impers crit sys
      = (sys.map (fun s => crit.countP (suspB s.name s.exe_path))).sum := by
  unfold win_check_procs_impers
  rw [win_check_aux]
  omega

theorem unix_check_aux (crit : List ProcProps) :
    ∀ (sys : List Process) (n : Nat),
      sys.foldl
        (fun susp_procs sys_proc =>
          crit.foldl
            (fun susp_procs crit_proc =>
              if suspB sys_proc.comm (unix_exe_path sys_proc) crit_proc then susp_procs + 1 else susp_procs)
            susp_procs)
        n
      = n + (sys.map (fun p => crit.countP (suspB p.comm (unix_exe_path p)))).sum := by
  intro sys
  induction sys with
  | nil => intro n; simp
  | cons s sys ih =>
    intro n
    simp only [List.foldl_cons, List.map_cons, List.sum_cons]
    rw [foldl_count, ih]
    omega

/-- The Unix detector counts, per process, the rules meeting the
suspicion condition, and sums over processes. -/
theorem unix_check_eq_sum (crit : List ProcProps) (sys : List Process) :
    unix_check_procs_impers crit sys
      = (sys.map (fun p => crit.countP (suspB p.comm (unix_exe_path p)))).sum := by
  unfold unix_check_procs_impers
  rw [unix_check_aux]
  omega

theorem is_whitelisted_eq_true_iff (proc_path : String) (wl : List String) :
    is_whitelisted proc_path wl = true ↔ proc_path ∈ wl := by
  unfold is_whitelisted
  simp

/-- The source's suspicion condition, spelled as the spec's match
policy: positive distance within the rule's threshold, and the path
not a member of the whitelist. -/
theorem suspB_eq_true_iff (name exe_path : String) (c : ProcProps) :
    suspB name exe_path c = true ↔
      0 < damerau_levenshtein name c.name ∧
        damerau_levenshtein name c.name ≤ c.threshold ∧
        exe_path ∉ c.whitelist := by
  unfold suspB is_whitelisted
  simp [and_assoc]
  intro _ _
  constructor
  · intro h hm
    exact h exe_path hm rfl
  · intro h x hx hxe
    exact h (hxe ▸ hx)

theorem win_check_singleton (c : ProcProps) (s : WinProc) :
    win_check_procs_impers [c] [s] = if suspB s.name s.exe_path c then 1 else 0 := by
  simp [win_check_procs_impers]

theorem unix_check_singleton (c : ProcProps) (p : Process) :
    unix_check_procs_impers [c] [p] = if suspB p.comm (unix_exe_path p) c then 1 else 0 := by
  simp [unix_check_procs_impers]

theorem unix_exe_path_error (p : Process) (why : String) (h : p.exe = .error why) :
    unix_exe_path p = why := by
  unfold unix_exe_path
  rw [h]

theorem win_findings_length (crit : List ProcProps) :
    ∀ sys : List WinProc,
      (win_findings crit sys).length
        = (sys.map (fun s => crit.countP (suspB s.name s.exe_path))).sum := by
  intro sys
  induction sys with
  | nil => simp [win_findings]
  | cons s sys ih =>
    simp only [win_findings, List.flatMap_cons, List.length_append, List.length_map,
      List.map_cons, List.sum_cons, List.countP_eq_length_filter]
    simp only [win_findings, List.countP_eq_length_filter] at ih
    rw [ih]

theorem unix_findings_length (crit : List ProcProps) :
    ∀ sys : List Process,
      (unix_findings crit sys).length
        = (sys.map (fun p => crit.countP (suspB p.comm (unix_exe_path p)))).sum := by
  intro sys
  induction sys with
  | nil => simp [unix_findings]
  | cons p sys ih =>
    simp only [unix_findings, List.flatMap_cons, List.length_append, List.length_map,
      List.map_cons, List.sum_cons, List.countP_eq_length_filter]
    simp only [unix_findings, List.countP_eq_length_filter] at ih
    rw [ih]

/-! ## Claim theorems -/

/-- Claim C1: a (snapshot, rule) pair is counted as suspicious by the
detector, on both variants, exactly when the Damerau-Levenshtein
distance `d` of the two names satisfies `0 < d ≤ rule.threshold` and
the snapshot's executable path is not string-equal to any whitelist
entry; distance 0 is never a finding, distance above the threshold is
never a finding, and whitelist membership is exact string equality. -/
theorem claim_C1_finding_iff (s : WinProc) (p : Process) (c : ProcProps) :
    (win_check_procs_impers [c] [s]
      = if 0 < damerau_levenshtein s.name c.name ∧
            damerau_levenshtein s.name c.name ≤ c.threshold ∧
            s.exe_path ∉ c.whitelist
        then 1 else 0) ∧
    (unix_check_procs_impers [c] [p]
      = if 0 < damerau_levenshtein p.comm c.name ∧
            damerau_levenshtein p.comm c.name ≤ c.threshold ∧
            unix_exe_path p ∉ c.whitelist
        then 1 else 0) := by
  constructor
  · rw [win_check_singleton]
    by_cases h : suspB s.name s.exe_path c = true
    · rw [if_pos h, if_pos ((suspB_eq_true_iff _ _ _).mp h)]
    · rw [if_neg h, if_neg (fun hp => h ((suspB_eq_true_iff _ _ _).mpr hp))]
  · rw [unix_check_singleton]
    by_cases h : suspB p.comm (unix_exe_path p) c = true
    · rw [if_pos h, if_pos ((suspB_eq_true_iff _ _ _).mp h)]
    · rw [if_neg h, if_neg (fun hp => h ((suspB_eq_true_iff _ _ _).mpr hp))]

/-- Claim C2: the suspicious count returned by either detector equals
the number of matching (snapshot, rule) pairs — the length of the
Findings list, which holds one entry per matching rule of each
snapshot — not the number of distinct snapshots that matched. -/
theorem claim_C2_count_is_pair_count (crit : List ProcProps)
    (sys : List WinProc) (usys : List Process) :
    win_check_procs_impers crit sys = (win_findings crit sys).length ∧
    unix_check_procs_impers crit usys = (unix_findings crit usys).length := by
  constructor
  · rw [win_check_eq_sum, win_findings_length]
  · rw [unix_check_eq_sum, unix_findings_length]

/-- Claim C3: the edit-distance primitive scores the adjacent
transposition "scvhost" / "svchost" as a single edit, while plain
Levenshtein distance on that pair is 2. -/
theorem claim_C3_transposition_distance :
    damerau_levenshtein "scvhost" "svchost" = 1 ∧
    levenshtein_plain "scvhost" "svchost" = 2 := by
  constructor
  · decide
  · decide

/-- Claim C5: a Unix process whose `exe()` call fails is not dropped:
wherever it sits in the snapshot list, it contributes to the count
exactly the rules matched with the error's string as its path — the
name-distance comparison runs against every rule. -/
theorem claim_C5_error_process_included (crit : List ProcProps)
    (ps qs : List Process) (p : Process) (why : String) (h : p.exe = .error why) :
    unix_check_procs_impers crit (ps ++ p :: qs)
      = unix_check_procs_impers crit ps
        + crit.countP (suspB p.comm why)
        + unix_check_procs_impers crit qs := by
  rw [unix_check_eq_sum, unix_check_eq_sum, unix_check_eq_sum,
    List.map_append, List.sum_append, List.map_cons, List.sum_cons,
    unix_exe_path_error p why h]
  omega

theorem claim_C5_witness :
    unix_check_procs_impers [{ name := "ab", threshold := 1, whitelist := [] }]
        ([] ++ { comm := "ax", exe := .error "E" } :: [])
      = unix_check_procs_impers [{ name := "ab", threshold := 1, whitelist := [] }] []
        + ([{ name := "ab", threshold := 1, whitelist := [] }] : List ProcProps).countP
            (suspB "ax" "E")
        + unix_check_procs_impers [{ name := "ab", threshold := 1, whitelist := [] }] [] :=
  claim_C5_error_process_included _ _ _ _ _ rfl

/-- Claim C7: the suspicious count of either detector is invariant
under any permutation of the rules and any permutation of the
snapshot list. -/
theorem claim_C7_perm_invariant (crit crit' : List ProcProps)
    (sys sys' : List WinProc) (usys usys' : List Process)
    (hc : crit.Perm crit') (hs : sys.Perm sys') (hu : usys.Perm usys') :
    win_check_procs_impers crit sys = win_check_procs_impers crit' sys' ∧
    unix_check_procs_impers crit usys = unix_check_procs_impers crit' usys' := by
  constructor
  · rw [win_check_eq_sum, win_check_eq_sum,
      show (fun s : WinProc => crit.countP (suspB s.name s.exe_path))
          = (fun s : WinProc => crit'.countP (suspB s.name s.exe_path)) from
        funext (fun s => hc.countP_eq _)]
    exact (hs.map _).sum_eq
  · rw [unix_check_eq_sum, unix_check_eq_sum,
      show (fun p : Process => crit.countP (suspB p.comm (unix_exe_path p)))
          = (fun p : Process => crit'.countP (suspB p.comm (unix_exe_path p))) from
        funext (fun p => hc.countP_eq _)]
    exact (hu.map _).sum_eq

theorem claim_C7_witness :
    win_check_procs_impers
        [{ name := "ab", threshold := 1, whitelist := [] },
         { name := "cd", threshold := 2, whitelist := ["/w"] }]
        [{ name := "ax", exe_path := "/a" }, { name := "cd", exe_path := "/b" }]
      = win_check_procs_impers
        [{ name := "cd", threshold := 2, whitelist := ["/w"] },
         { name := "ab", threshold := 1, whitelist := [] }]
        [{ name := "cd", exe_path := "/b" }, { name := "ax", exe_path := "/a" }] ∧
    unix_check_procs_impers
        [{ name := "ab", threshold := 1, whitelist := [] },
         { name := "cd", threshold := 2, whitelist := ["/w"] }]
        [{ comm := "ab", exe := .ok "/a" }, { comm := "ce", exe := .error "E" }]
      = unix_check_procs_impers
        [{ name := "cd", threshold := 2, whitelist := ["/w"] },
         { name := "ab", threshold := 1, whitelist := [] }]
        [{ comm := "ce", exe := .error "E" }, { comm := "ab", exe := .ok "/a" }] :=
  claim_C7_perm_invariant _ _ _ _ _ _
    (List.Perm.swap _ _ _) (List.Perm.swap _ _ _) (List.Perm.swap _ _ _)

/-- Claim C8: the edit-distance primitive is symmetric in its two
arguments. -/
theorem claim_C8_distance_symm (a b : String) :
    damerau_levenshtein a b = damerau_levenshtein b a := by
  unfold damerau_levenshtein
  rw [dlFuel_comm, Nat.add_comm a.length b.length]

/-- Claim C4: in the Windows enumerator, a PID whose `OpenProcess`
returns a null handle is not skipped: control falls through to the
decode step and, the name/path buffers still holding the previous
PID's data, a second copy of the previous snapshot is emitted, with no
error report.  Here the first PID resolves fully to
`(a.exe, C:\a.exe)` and the second PID's handle open fails, yet the
enumerator output lists that snapshot twice. -/
theorem claim_C4_null_handle_emits_stale :
    read_win_system_procs true
        [{ handle_null := false, enum_modules_ret := 0, base_name_ret := 1,
           base_name_buf := "a.exe", file_name_ret := 1, file_name_buf := "C:\\a.exe" },
         { handle_null := true, enum_modules_ret := 0, base_name_ret := 0,
           base_name_buf := "", file_name_ret := 0, file_name_buf := "" }]
      = [{ name := "a.exe", exe_path := "C:\\a.exe" },
         { name := "a.exe", exe_path := "C:\\a.exe" }] := by
  decide

theorem bad_parse_error (l : String) (hb : badLineB l = true) :
    ∃ e, parse_rule_line l = .error e := by
  by_cases h3 : (split_semi l).length < 3
  · exact ⟨.invalidFormat l, by simp [parse_rule_line, h3]⟩
  · have hn : parse_u32 (split_semi l)[1]! = none := by
      have := hb
      simp only [badLineB, Bool.or_eq_true, decide_eq_true_eq] at this
      rcases this with h | h
      · exact absurd h h3
      · exact Option.isNone_iff_eq_none.mp h
    exact ⟨.parseIntError, by simp [parse_rule_line, h3, hn]⟩

theorem read_bad_error : ∀ (lines : List String),
    (∃ l ∈ lines, badLineB l = true) → ∃ e, read_procs_file lines = .error e := by
  intro lines
  induction lines with
  | nil => rintro ⟨l, hl, _⟩; exact absurd hl (List.not_mem_nil l)
  | cons a rest ih =>
    rintro ⟨l, hl, hb⟩
    by_cases ha : badLineB a = true
    · obtain ⟨e, he⟩ := bad_parse_error a ha
      exact ⟨e, by simp [read_procs_file, he]⟩
    · have hl' : l ∈ rest := by
        rcases List.mem_cons.mp hl with rfl | h
        · exact absurd hb ha
        · exact h
      obtain ⟨e, he⟩ := ih ⟨l, hl', hb⟩
      cases hp : parse_rule_line a with
      | error e' => exact ⟨e', by simp [read_procs_file, hp]⟩
      | ok r => exact ⟨e, by simp [read_procs_file, hp, he]⟩

/-- Claim C6 counterexample: a line whose second field is not numeric
aborts rule loading with the bare parse error, which does not carry
the offending line — only the field-count assertion reports the
line. -/
theorem claim_C6_counterexample :
    read_procs_file ["svchost;x;/usr/bin/svchost"] = .error .parseIntError ∧
    RulesError.parseIntError ≠ .invalidFormat "svchost;x;/usr/bin/svchost" := by
  constructor
  · decide
  · decide

/-- Claim C6 (amended): a rules file with a line of fewer than three
semicolon-delimited fields, or whose second field does not parse as an
unsigned integer, makes the run fail fatally whatever the process list
— no scan runs — and in the short-line case the error carries the
offending line (the non-numeric case aborts with a bare parse
error). -/
theorem claim_C6_malformed_fatal (lines : List String) (sys : List Process) (line : String) :
    ((∃ l ∈ lines, badLineB l = true) → ∃ e, bonomen_run lines sys = .error e) ∧
    ((split_semi line).length < 3 →
      parse_rule_line line = .error (.invalidFormat line)) := by
  constructor
  · intro h
    obtain ⟨e, he⟩ := read_bad_error lines h
    exact ⟨e, by simp [bonomen_run, he]⟩
  · intro h3
    simp [parse_rule_line, h3]

theorem claim_C6_witness :
    (∃ e, bonomen_run ["a;b"] [] = .error e) ∧
    parse_rule_line "a;b" = .error (.invalidFormat "a;b") :=
  ⟨(claim_C6_malformed_fatal ["a;b"] [] "a;b").1 ⟨"a;b", by simp, by decide⟩,
   (claim_C6_malformed_fatal ["a;b"] [] "a;b").2 (by decide)⟩

/-- Claim C9 counterexample: the parser accepts a line whose first
field is empty and produces a rule whose name is the empty string, so
rules-file parsing does not enforce the non-empty-name invariant. -/
theorem claim_C9_counterexample :
    read_procs_file [";1;/p"] = .ok [{ name := "", threshold := 1, whitelist := ["/p"] }] := by
  decide

theorem parse_ok_name (l : String) (r : ProcProps) (h : parse_rule_line l = .ok r) :
    r.name = (split_semi l)[0]! := by
  by_cases h3 : (split_semi l).length < 3
  · simp [parse_rule_line, h3] at h
  · cases hpu : parse_u32 (split_semi l)[1]! with
    | none => simp [parse_rule_line, h3, hpu] at h
    | some t =>
      simp [parse_rule_line, h3, hpu] at h
      rw [← h]

theorem read_ok_names : ∀ (lines : List String) (rules : List ProcProps),
    read_procs_file lines = .ok rules →
      ∀ r ∈ rules, ∃ l ∈ lines, parse_rule_line l = .ok r := by
  intro lines
  induction lines with
  | nil =>
    intro rules h r hr
    simp only [read_procs_file, Except.ok.injEq] at h
    subst h
    exact absurd hr (List.not_mem_nil r)
  | cons a rest ih =>
    intro rules h r hr
    cases hp : parse_rule_line a with
    | error e => rw [read_procs_file, hp] at h; exact absurd h (by simp)
    | ok r0 =>
      cases hrest : read_procs_file rest with
      | error e => rw [read_procs_file, hp, hrest] at h; exact absurd h (by simp)
      | ok rs =>
        rw [read_procs_file, hp, hrest] at h
        simp only [Except.ok.injEq] at h
        subst h
        rcases List.mem_cons.mp hr with rfl | hmem
        · exact ⟨a, List.mem_cons_self a rest, hp⟩
        · obtain ⟨l, hl, hpl⟩ := ih rs hrest r hmem
          exact ⟨l, List.mem_cons_of_mem a hl, hpl⟩

/-- Claim C9 (amended): every rule's name is copied verbatim from the
line's first semicolon-delimited field, with no non-emptiness check;
whenever every line of an accepted rules file has a non-empty first
field, no rule in the result carries an empty name. -/
theorem claim_C9_nonempty_names (lines : List String) (rules : List ProcProps)
    (hfields : ∀ l ∈ lines, (split_semi l)[0]! ≠ "")
    (h : read_procs_file lines = .ok rules) :
    "" ∉ rules.map ProcProps.name := by
  intro hmem
  obtain ⟨r, hr, hname⟩ := List.mem_map.mp hmem
  obtain ⟨l, hl, hpl⟩ := read_ok_names lines rules h r hr
  exact hfields l hl (by rw [← parse_ok_name l r hpl, hname])

theorem claim_C9_witness :
    "" ∉ ([{ name := "svchost", threshold := 1, whitelist := ["/p"] }] : List ProcProps).map
        ProcProps.name :=
  claim_C9_nonempty_names ["svchost;1;/p"] _ (by decide) (by decide)

/-- Claim C10 counterexample: the placeholder substituted for a failed
`exe()` call is the error's own message string, and nothing keeps a
whitelist from containing that exact string: here the distance is 1
and within the threshold, yet the process is treated as whitelisted
and no finding is produced. -/
theorem claim_C10_counterexample :
    unix_check_procs_impers [{ name := "ab", threshold := 2, whitelist := ["boom"] }]
        [{ comm := "ax", exe := .error "boom" }] = 0 ∧
    is_whitelisted (unix_exe_path { comm := "ax", exe := .error "boom" }) ["boom"] = true ∧
    damerau_levenshtein "ax" "ab" = 1 := by
  refine ⟨by decide, by decide, by decide⟩

/-- Claim C10 (amended): the code never crashes on a failed `exe()`
call — the error is absorbed and the check runs on the name — and
whenever the placeholder string differs from every whitelist entry of
every rule, the process is not treated as whitelisted for any rule:
the count is decided by the distance conditions alone.  The code
itself does not guarantee that the placeholder avoids whitelist
entries. -/
theorem claim_C10_placeholder (crit : List ProcProps) (p : Process) (why : String)
    (h : p.exe = .error why) (hw : ∀ c ∈ crit, why ∉ c.whitelist) :
    unix_check_procs_impers crit [p]
      = crit.countP (fun c =>
          decide (0 < damerau_levenshtein p.comm c.name) &&
          decide (damerau_levenshtein p.comm c.name ≤ c.threshold)) := by
  rw [unix_check_eq_sum, List.map_cons, List.map_nil, List.sum_cons, List.sum_nil,
    unix_exe_path_error p why h]
  rw [Nat.add_zero]
  apply List.countP_congr
  intro c hc
  have hwl : is_whitelisted why c.whitelist = false := by
    rw [← Bool.not_eq_true]
    intro habs
    exact hw c hc ((is_whitelisted_eq_true_iff _ _).mp habs)
  simp [suspB, hwl]

theorem claim_C10_witness :
    unix_check_procs_impers [{ name := "ab", threshold := 1, whitelist := ["/x"] }]
        [{ comm := "ax", exe := .error "E" }]
      = ([{ name := "ab", threshold := 1, whitelist := ["/x"] }] : List ProcProps).countP
          (fun c =>
            decide (0 < damerau_levenshtein "ax" c.name) &&
            decide (damerau_levenshtein "ax" c.name ≤ c.threshold)) :=
  claim_C10_placeholder _ _ "E" rfl (by decide)

end Bonomen
